import Mathlib

/-!
Verification of the `Serial` class of openmote-py (`src/Serial.py`).

The class runs a per-byte HDLC frame synchronizer in its `run` loop,
keeps six statistics counters, hands decoded frames to consumers through
a single-slot condition-variable mailbox (`receive_message` plus
`receive_condition`), and transmits encoded frames through the serial
port.  We embed the state mutated by `run`, `receive`, `transmit` and
`clear_statistics` as a Lean structure and the methods as pure state
transformers.  The HDLC codec (`hdlcify` / `dehdlcify`) is an external
collaborator: we pass its outcome in as an `Option` value, `none`
standing for a raised exception.  Serial-port I/O and real-time waiting
are outside the embedding; `receive` is modelled at the point after its
condition wait has returned.
-/

/-- Modelled from the spec: the well-known single-byte frame delimiter
`FRAME_DELIMITER` (`HDLC_FLAG` of the `Hdlc` module, which is not part of
the sources here; the standard HDLC flag byte is 0x7E).  No claim depends
on the numeric value, only on it being a fixed byte. -/
def HDLC_FLAG : Nat := 0x7E

/-- The mutable fields of a `Serial` object that the modelled methods
touch: the frame-assembly buffer, the single-slot inbox
(`receive_message`), the synchronizer state (`is_receiving`,
`last_rx_byte`, with `none` standing for Python's initial `''`), the
transmit buffer, a count of `receive_condition.notify()` calls made so
far, and the six statistics counters. -/
structure SerialState where
  receive_buffer : List Nat
  receive_message : List Nat
  is_receiving : Bool
  last_rx_byte : Option Nat
  transmit_buffer : List Nat
  notifies : Nat
  tx_total_frames : Nat
  tx_good_frames : Nat
  tx_bad_frames : Nat
  rx_total_frames : Nat
  rx_good_frames : Nat
  rx_bad_frames : Nat

/-- The state established by `Serial.__init__`: empty buffers, empty
inbox, synchronizer idle with no last byte, all six counters zero. -/
def initState : SerialState :=
  { receive_buffer := []
    receive_message := []
    is_receiving := false
    last_rx_byte := none
    transmit_buffer := []
    notifies := 0
    tx_total_frames := 0
    tx_good_frames := 0
    tx_bad_frames := 0
    rx_total_frames := 0
    rx_good_frames := 0
    rx_bad_frames := 0 }

/-- One iteration of the per-byte loop in `Serial.run` (lines 107-177):
start of frame, middle of frame, end of frame, or the fall-through case,
followed by the `last_rx_byte` update.  `decode` is the outcome of
`hdlc.dehdlcify` on the completed buffer (`none` = exception raised).
Returns the new state together with the completed raw frame, if this
byte completed one. -/
def feedByte (decode : List Nat → Option (List Nat)) (s : SerialState)
    (b : Nat) : SerialState × Option (List Nat) :=
  if s.is_receiving = false ∧ s.last_rx_byte = some HDLC_FLAG ∧ b ≠ HDLC_FLAG then
    ({ s with is_receiving := true
              receive_buffer := [HDLC_FLAG, b]
              last_rx_byte := some b }, none)
  else if s.is_receiving = true ∧ b ≠ HDLC_FLAG then
    ({ s with receive_buffer := s.receive_buffer ++ [b]
              last_rx_byte := some b }, none)
  else if s.is_receiving = true ∧ b = HDLC_FLAG then
    match decode (s.receive_buffer ++ [b]) with
    | some msg =>
        ({ s with receive_buffer := []
                  receive_message := msg
                  is_receiving := false
                  last_rx_byte := none
                  notifies := s.notifies + 1
                  rx_total_frames := s.rx_total_frames + 1
                  rx_good_frames := s.rx_good_frames + 1 }, some (s.receive_buffer ++ [b]))
    | none =>
        ({ s with receive_buffer := []
                  receive_message := []
                  is_receiving := false
                  last_rx_byte := none
                  rx_total_frames := s.rx_total_frames + 1
                  rx_bad_frames := s.rx_bad_frames + 1 }, some (s.receive_buffer ++ [b]))
  else
    ({ s with last_rx_byte := some b }, none)

/-- Feeding a list of bytes through `feedByte` in order, collecting the
completed raw frames in the order they are emitted. -/
def feedBytes (decode : List Nat → Option (List Nat)) (s : SerialState) :
    List Nat → SerialState × List (List Nat)
  | [] => (s, [])
  | b :: bs =>
      match feedByte decode s b with
      | (s1, fr) =>
          match feedBytes decode s1 bs with
          | (s2, frs) =>
              (s2, match fr with
                   | some f => f :: frs
                   | none => frs)

/-- Model of `Serial.receive` (lines 195-223) at the point after the
condition wait has returned: if `receive_message` is non-empty it is
returned with its length, otherwise `([], -1)`; either way the slot is
reset to `[]`.  Returns `((message, length), new state)`. -/
def receive (s : SerialState) : (List Nat × Int) × SerialState :=
  if s.receive_message ≠ [] then
    ((s.receive_message, (s.receive_message.length : Int)),
     { s with receive_message := [] })
  else
    (([], -1), { s with receive_message := [] })

/-- Model of `Serial.transmit` (lines 226-255).  `enc` is the outcome of
`hdlc.hdlcify(message)` (`none` = exception), `writeOk` whether the
serial-port write succeeds.  Returns `(new state, raised, wrote)`:
`raised` is whether the call propagates an exception to the caller,
`wrote` whether `serial_port.write` was reached. -/
def transmit (enc : Option (List Nat)) (writeOk : Bool) (s : SerialState) :
    SerialState × Bool × Bool :=
  match enc with
  | none =>
      ({ s with tx_total_frames := s.tx_total_frames + 1
                tx_bad_frames := s.tx_bad_frames + 1 }, true, false)
  | some buf =>
      if writeOk then
        ({ s with tx_total_frames := s.tx_total_frames + 1
                  transmit_buffer := buf
                  tx_good_frames := s.tx_good_frames + 1 }, false, true)
      else
        ({ s with tx_total_frames := s.tx_total_frames + 1
                  transmit_buffer := buf
                  tx_bad_frames := s.tx_bad_frames + 1 }, true, true)

/-- Model of `Serial.clear_statistics` (lines 257-263): reset the six
counters, touch nothing else. -/
def clear_statistics (s : SerialState) : SerialState :=
  { s with tx_total_frames := 0
           tx_good_frames := 0
           tx_bad_frames := 0
           rx_total_frames := 0
           rx_good_frames := 0
           rx_bad_frames := 0 }

/-- The six statistics counters as one tuple, in the order of
`get_statistics`. -/
def stats (s : SerialState) : Nat × Nat × Nat × Nat × Nat × Nat :=
  (s.tx_total_frames, s.tx_good_frames, s.tx_bad_frames,
   s.rx_total_frames, s.rx_good_frames, s.rx_bad_frames)

/-- One externally driven operation on a `Serial` object: a byte
arriving in the `run` loop (with the codec outcome for a frame completed
by it), a `transmit` call (with its codec and write outcomes), a
`receive` call, or `clear_statistics`. -/
inductive Op where
  | feed (decode : List Nat → Option (List Nat)) (b : Nat)
  | tx (enc : Option (List Nat)) (writeOk : Bool)
  | recv
  | clear

/-- Apply one operation to the state, discarding the returned values. -/
def applyOp (s : SerialState) : Op → SerialState
  | Op.feed d b => (feedByte d s b).1
  | Op.tx enc w => (transmit enc w s).1
  | Op.recv => (receive s).2
  | Op.clear => clear_statistics s

/-- Apply a sequence of operations in order. -/
def applyOps (s : SerialState) (ops : List Op) : SerialState :=
  ops.foldl applyOp s

/-- A codec outcome that always fails; used to instantiate theorems at
concrete inputs where the decode result is irrelevant. -/
def decodeNone : List Nat → Option (List Nat) := fun _ => none

/-- A codec outcome that decodes every frame to the empty payload. -/
def decodeEmpty : List Nat → Option (List Nat) := fun _ => some []

/-- A codec outcome decoding every frame to the payload `[9]`. -/
def decodeNine : List Nat → Option (List Nat) := fun _ => some [9]

/-- A codec outcome that decodes the frame `[FLAG, 1, FLAG]` to `[1]`
and fails on everything else. -/
def decodeOnlyOne : List Nat → Option (List Nat) := fun raw =>
  if raw = [HDLC_FLAG, 1, HDLC_FLAG] then some [1] else none

/-- Invariant of the assembly buffer: while a frame is being received,
`receive_buffer` is the flag followed by at least one non-flag byte. -/
def BufOK (s : SerialState) : Prop :=
  s.is_receiving = true →
    ∃ mid, s.receive_buffer = HDLC_FLAG :: mid ∧ mid ≠ [] ∧ ∀ x ∈ mid, x ≠ HDLC_FLAG

/-- The cross-counter consistency property of the statistics: totals are
the sums of the good and bad tallies, in both directions. -/
def StatsInv (s : SerialState) : Prop :=
  s.tx_total_frames = s.tx_good_frames + s.tx_bad_frames ∧
  s.rx_total_frames = s.rx_good_frames + s.rx_bad_frames

/-- States that agree on the six counters and on the synchronizer state
that can influence the counters: `is_receiving`, `last_rx_byte`, and —
when a frame is in progress — the assembly buffer (its contents feed the
codec and so decide `rx_good_frames` versus `rx_bad_frames`). -/
def SyncEq (s t : SerialState) : Prop :=
  stats s = stats t ∧
  s.is_receiving = t.is_receiving ∧
  s.last_rx_byte = t.last_rx_byte ∧
  (s.is_receiving = true → s.receive_buffer = t.receive_buffer)

lemma bufOK_initState : BufOK initState := by
  intro h
  simp [initState] at h

lemma feedByte_bufOK (decode : List Nat → Option (List Nat)) (s : SerialState)
    (b : Nat) (h : BufOK s) : BufOK (feedByte decode s b).1 := by
  unfold feedByte
  split_ifs with h1 h2 h3
  · intro _
    exact ⟨[b], rfl, by simp, by simp [h1.2.2]⟩
  · intro _
    obtain ⟨mid, hbuf, hne, hmem⟩ := h h2.1
    refine ⟨mid ++ [b], by simp [hbuf], by simp, ?_⟩
    intro x hx
    rcases List.mem_append.mp hx with hx | hx
    · exact hmem x hx
    · simp at hx
      simpa [hx] using h2.2
  · intro hcontra
    rcases hdec : decode (s.receive_buffer ++ [b]) with _ | msg <;>
      rw [hdec] at hcontra <;> simp at hcontra
  · intro hrecv
    obtain ⟨mid, hbuf, hne, hmem⟩ := h hrecv
    exact ⟨mid, hbuf, hne, hmem⟩

lemma feedByte_frame_shape (decode : List Nat → Option (List Nat))
    (s : SerialState) (b : Nat) (f : List Nat) (h : BufOK s)
    (hf : (feedByte decode s b).2 = some f) :
    ∃ mid, f = HDLC_FLAG :: mid ++ [HDLC_FLAG] ∧ mid ≠ [] ∧
      ∀ x ∈ mid, x ≠ HDLC_FLAG := by
  unfold feedByte at hf
  split_ifs at hf with h1 h2 h3
  obtain ⟨mid, hbuf, hne, hmem⟩ := h h3.1
  rcases hdec : decode (s.receive_buffer ++ [b]) with _ | msg <;>
    rw [hdec] at hf <;> simp at hf <;>
    exact ⟨mid, by rw [← hf, hbuf, h3.2], hne, hmem⟩

lemma feedBytes_frame_shape (decode : List Nat → Option (List Nat)) :
    ∀ (bs : List Nat) (s : SerialState), BufOK s →
      ∀ f ∈ (feedBytes decode s bs).2,
        ∃ mid, f = HDLC_FLAG :: mid ++ [HDLC_FLAG] ∧ mid ≠ [] ∧
          ∀ x ∈ mid, x ≠ HDLC_FLAG := by
  intro bs
  induction bs with
  | nil =>
      intro s _ f hf
      simp [feedBytes] at hf
  | cons b bs ih =>
      intro s hs f hf
      have hs1 : BufOK (feedByte decode s b).1 := feedByte_bufOK decode s b hs
      rcases hfb : feedByte decode s b with ⟨s1, fr⟩
      rw [hfb] at hs1
      simp only [feedBytes, hfb] at hf
      rcases hfs : feedBytes decode s1 bs with ⟨s2, frs⟩
      rw [hfs] at hf
      rcases fr with _ | g
      · simp at hf
        exact ih s1 hs1 f (by rw [hfs]; exact hf)
      · simp at hf
        rcases hf with hf | hf
        · subst hf
          exact feedByte_frame_shape decode s b f hs (by rw [hfb])
        · exact ih s1 hs1 f (by rw [hfs]; exact hf)

lemma feedBytes_flags_only (decode : List Nat → Option (List Nat)) :
    ∀ (n : Nat) (s : SerialState), s.is_receiving = false →
      (feedBytes decode s (List.replicate n HDLC_FLAG)).2 = [] ∧
      (feedBytes decode s (List.replicate n HDLC_FLAG)).1.is_receiving = false := by
  intro n
  induction n with
  | zero =>
      intro s hs
      exact ⟨rfl, hs⟩
  | succ n ih =>
      intro s hs
      have hstep : feedByte decode s HDLC_FLAG =
          ({ s with last_rx_byte := some HDLC_FLAG }, none) := by
        simp [feedByte, hs]
      simp only [List.replicate_succ, feedBytes, hstep]
      have := ih { s with last_rx_byte := some HDLC_FLAG } hs
      rcases hrec : feedBytes decode { s with last_rx_byte := some HDLC_FLAG }
          (List.replicate n HDLC_FLAG) with ⟨s2, frs⟩
      rw [hrec] at this
      exact this

lemma feedBytes_no_flag (decode : List Nat → Option (List Nat)) :
    ∀ (bs : List Nat) (s : SerialState), s.is_receiving = false →
      s.last_rx_byte ≠ some HDLC_FLAG → HDLC_FLAG ∉ bs →
      (feedBytes decode s bs).2 = [] := by
  intro bs
  induction bs with
  | nil =>
      intro s _ _ _
      rfl
  | cons b bs ih =>
      intro s hs hlast hmem
      have hb : b ≠ HDLC_FLAG := fun h => hmem (h ▸ List.mem_cons_self b bs)
      have hstep : feedByte decode s b = ({ s with last_rx_byte := some b }, none) := by
        simp [feedByte, hs, hlast]
      simp only [feedBytes, hstep]
      have hrest := ih { s with last_rx_byte := some b } hs
        (by simpa using hb) (fun h => hmem (List.mem_cons_of_mem b h))
      rcases hrec : feedBytes decode { s with last_rx_byte := some b } bs with ⟨s2, frs⟩
      rw [hrec] at hrest
      simpa [hrest] using hrest

lemma applyOp_statsInv (s : SerialState) (op : Op) (h : StatsInv s) :
    StatsInv (applyOp s op) := by
  obtain ⟨htx, hrx⟩ := h
  cases op with
  | feed d b =>
      simp only [applyOp]
      unfold feedByte
      split_ifs with h1 h2 h3
      · exact ⟨htx, hrx⟩
      · exact ⟨htx, hrx⟩
      · rcases hdec : d (s.receive_buffer ++ [b]) with _ | msg <;>
          simp [StatsInv, hdec, htx, hrx] <;> omega
      · exact ⟨htx, hrx⟩
  | tx enc w =>
      rcases enc with _ | buf
      · refine ⟨?_, ?_⟩ <;> simp [applyOp, transmit] <;> omega
      · by_cases hw : w = true <;>
          refine ⟨?_, ?_⟩ <;> simp [applyOp, transmit, hw] <;> omega
  | recv =>
      simp only [applyOp]
      unfold receive
      split_ifs <;> exact ⟨htx, hrx⟩
  | clear =>
      exact ⟨rfl, rfl⟩

lemma foldl_statsInv (ops : List Op) :
    ∀ s : SerialState, StatsInv s → StatsInv (List.foldl applyOp s ops) := by
  induction ops with
  | nil => exact fun s hs => hs
  | cons op ops ih =>
      intro s hs
      exact ih (applyOp s op) (applyOp_statsInv s op hs)

lemma applyOp_syncEq (op : Op) (s t : SerialState) (h : SyncEq s t) :
    SyncEq (applyOp s op) (applyOp t op) := by
  obtain ⟨hst, hrecv, hlast, hbuf⟩ := h
  simp only [stats, Prod.mk.injEq] at hst
  obtain ⟨e1, e2, e3, e4, e5, e6⟩ := hst
  cases op with
  | feed d b =>
      simp only [applyOp]
      unfold feedByte
      rw [hrecv, hlast]
      split_ifs with h1 h2 h3
      · exact ⟨by simp [stats, e1, e2, e3, e4, e5, e6], rfl, rfl, fun _ => rfl⟩
      · have hsr : s.is_receiving = true := hrecv.trans h2.1
        have hb : s.receive_buffer = t.receive_buffer := hbuf hsr
        exact ⟨by simp [stats, e1, e2, e3, e4, e5, e6], rfl, rfl,
               fun _ => by rw [hb]⟩
      · have hsr : s.is_receiving = true := hrecv.trans h3.1
        have hb : s.receive_buffer = t.receive_buffer := hbuf hsr
        rw [hb]
        rcases d (t.receive_buffer ++ [b]) with _ | msg <;>
          exact ⟨by simp [stats, e1, e2, e3, e4, e5, e6], rfl, rfl,
                 fun hx => by simp at hx⟩
      · exact ⟨by simp [stats, e1, e2, e3, e4, e5, e6], rfl, rfl,
               fun hx => hbuf (hrecv.trans (by simpa using hx))⟩
  | tx enc w =>
      rcases enc with _ | buf
      · exact ⟨by simp [applyOp, transmit, stats, e1, e2, e3, e4, e5, e6],
               hrecv, hlast, hbuf⟩
      · by_cases hw : w = true
        · simp only [applyOp, transmit, if_pos hw]
          exact ⟨by simp [stats, e1, e2, e3, e4, e5, e6], hrecv, hlast, hbuf⟩
        · simp only [applyOp, transmit, if_neg hw]
          exact ⟨by simp [stats, e1, e2, e3, e4, e5, e6], hrecv, hlast, hbuf⟩
  | recv =>
      simp only [applyOp]
      unfold receive
      split_ifs <;>
        exact ⟨by simp [stats, e1, e2, e3, e4, e5, e6], hrecv, hlast, hbuf⟩
  | clear =>
      exact ⟨by simp [applyOp, clear_statistics, stats], hrecv, hlast, hbuf⟩

lemma foldl_syncEq (ops : List Op) :
    ∀ s t : SerialState, SyncEq s t →
      SyncEq (List.foldl applyOp s ops) (List.foldl applyOp t ops) := by
  induction ops with
  | nil => exact fun s t h => h
  | cons op ops ih =>
      intro s t h
      exact ih (applyOp s op) (applyOp t op) (applyOp_syncEq op s t h)

/-- C1: every raw frame emitted by the per-byte synchronizer loop of
`run`, over any byte sequence fed from the initial state, starts with
the frame delimiter, ends with the frame delimiter, and has no interior
position equal to the delimiter. -/
theorem frames_delimited (decode : List Nat → Option (List Nat))
    (bs : List Nat) (f : List Nat)
    (hf : f ∈ (feedBytes decode initState bs).2) :
    f.head? = some HDLC_FLAG ∧ f.getLast? = some HDLC_FLAG ∧
      ∀ x ∈ f.dropLast.tail, x ≠ HDLC_FLAG := by
  obtain ⟨mid, hshape, _, hmem⟩ :=
    feedBytes_frame_shape decode bs initState bufOK_initState f hf
  subst hshape
  refine ⟨by simp, ?_, ?_⟩
  · exact List.getLast?_concat _
  · rw [List.dropLast_concat, List.tail_cons]
    exact hmem

/-- Witness for `frames_delimited` on the frame from scenario 1. -/
theorem frames_delimited_witness :
    [0x7E, 0x01, 0x02, 0x7E] ∈
      (feedBytes decodeNone initState [0x7E, 0x01, 0x02, 0x7E]).2 ∧
    ([0x7E, 0x01, 0x02, 0x7E] : List Nat).head? = some HDLC_FLAG ∧
    ([0x7E, 0x01, 0x02, 0x7E] : List Nat).getLast? = some HDLC_FLAG ∧
    ∀ x ∈ ([0x7E, 0x01, 0x02, 0x7E] : List Nat).dropLast.tail, x ≠ HDLC_FLAG :=
  ⟨by decide,
   frames_delimited decodeNone [0x7E, 0x01, 0x02, 0x7E] [0x7E, 0x01, 0x02, 0x7E]
     (by decide)⟩

/-- C2: after initialization and after every prefix of any sequence of
operations (bytes processed by the `run` loop, `transmit` calls whether
they raise or not, `receive` calls, `clear_statistics`),
`tx_total_frames = tx_good_frames + tx_bad_frames` and
`rx_total_frames = rx_good_frames + rx_bad_frames`. -/
theorem stats_totals_invariant (ops : List Op) :
    StatsInv (applyOps initState ops) :=
  foldl_statsInv ops initState ⟨rfl, rfl⟩

/-- C3: when a completed raw frame fails to decode, `rx_total_frames`
and `rx_bad_frames` each increment by 1, `rx_good_frames` is unchanged,
no notify is delivered to the receive condition, and a subsequent
`receive` (with no other frame arriving) returns `([], -1)` — note the
decode failure also clears `receive_message`, so this holds whatever was
pending. -/
theorem decode_failure_effects (decode : List Nat → Option (List Nat))
    (s : SerialState) (hr : s.is_receiving = true)
    (hd : decode (s.receive_buffer ++ [HDLC_FLAG]) = none) :
    (feedByte decode s HDLC_FLAG).1.rx_total_frames = s.rx_total_frames + 1 ∧
    (feedByte decode s HDLC_FLAG).1.rx_bad_frames = s.rx_bad_frames + 1 ∧
    (feedByte decode s HDLC_FLAG).1.rx_good_frames = s.rx_good_frames ∧
    (feedByte decode s HDLC_FLAG).1.notifies = s.notifies ∧
    (receive (feedByte decode s HDLC_FLAG).1).1 = ([], -1) := by
  simp [feedByte, hr, hd, receive]

/-- Witness for `decode_failure_effects` at a concrete mid-frame state. -/
theorem decode_failure_effects_witness :
    ({ initState with is_receiving := true
                      receive_buffer := [HDLC_FLAG, 1] } : SerialState).is_receiving = true ∧
    decodeNone ([HDLC_FLAG, 1] ++ [HDLC_FLAG]) = none ∧
    (receive (feedByte decodeNone
      { initState with is_receiving := true
                       receive_buffer := [HDLC_FLAG, 1] } HDLC_FLAG).1).1 = ([], -1) :=
  ⟨by decide, by decide,
   (decode_failure_effects decodeNone
     { initState with is_receiving := true
                      receive_buffer := [HDLC_FLAG, 1] }
     (by decide) (by decide)).2.2.2.2⟩

/-- C4 counterexample: feed `[FLAG,1,FLAG]` (decodes to `[1]`, published
to the inbox and not taken), then `[FLAG,2,FLAG]` (decode fails).  The
claim says the failure discards only the bad raw frame, so `receive`
should still return `([1], 1)`; in the code the `except` branch of `run`
also clears `receive_message`, so `receive` returns `([], -1)`. -/
theorem decode_failure_clears_inbox_cex :
    (feedBytes decodeOnlyOne initState [HDLC_FLAG, 1, HDLC_FLAG]).1.receive_message
      = [1] ∧
    (feedBytes decodeOnlyOne initState
      [HDLC_FLAG, 1, HDLC_FLAG, HDLC_FLAG, 2, HDLC_FLAG]).2
      = [[HDLC_FLAG, 1, HDLC_FLAG], [HDLC_FLAG, 2, HDLC_FLAG]] ∧
    (receive (feedBytes decodeOnlyOne initState
      [HDLC_FLAG, 1, HDLC_FLAG, HDLC_FLAG, 2, HDLC_FLAG]).1).1 = ([], -1) ∧
    (receive (feedBytes decodeOnlyOne initState
      [HDLC_FLAG, 1, HDLC_FLAG, HDLC_FLAG, 2, HDLC_FLAG]).1).1 ≠ ([1], 1) := by
  refine ⟨by decide, by decide, by decide, by decide⟩

/-- C4 amended: a decode failure does not leave an earlier unread frame
in the inbox — it clears `receive_message` along with the assembly
buffer, so whatever was pending is lost and a subsequent `receive` (with
no other frame arriving) returns `([], -1)`. -/
theorem decode_failure_loses_pending (decode : List Nat → Option (List Nat))
    (s : SerialState) (hr : s.is_receiving = true)
    (hd : decode (s.receive_buffer ++ [HDLC_FLAG]) = none) :
    (feedByte decode s HDLC_FLAG).1.receive_message = [] ∧
    (receive (feedByte decode s HDLC_FLAG).1).1 = ([], -1) := by
  simp [feedByte, hr, hd, receive]

/-- Witness for `decode_failure_loses_pending`: the pending frame `[1]`
is in the inbox when the bad frame completes. -/
theorem decode_failure_loses_pending_witness :
    ({ initState with is_receiving := true
                      receive_buffer := [HDLC_FLAG, 2]
                      receive_message := [1] } : SerialState).is_receiving = true ∧
    decodeNone ([HDLC_FLAG, 2] ++ [HDLC_FLAG]) = none ∧
    (receive (feedByte decodeNone
      { initState with is_receiving := true
                       receive_buffer := [HDLC_FLAG, 2]
                       receive_message := [1] } HDLC_FLAG).1).1 = ([], -1) :=
  ⟨by decide, by decide,
   (decode_failure_loses_pending decodeNone
     { initState with is_receiving := true
                      receive_buffer := [HDLC_FLAG, 2]
                      receive_message := [1] }
     (by decide) (by decide)).2⟩

/-- C5: when the inbox still holds an untaken frame `A` and a further
raw frame completes whose decode yields `B`, the slot is overwritten:
afterwards `receive_message = B`, the message a subsequent `receive`
returns is `B` (with length `B.length` when `B` is non-empty), and it is
never `A` when `A ≠ B`. -/
theorem inbox_overwrite (decode : List Nat → Option (List Nat))
    (s : SerialState) (A B : List Nat) (hr : s.is_receiving = true)
    (_hA : s.receive_message = A)
    (hd : decode (s.receive_buffer ++ [HDLC_FLAG]) = some B) :
    (feedByte decode s HDLC_FLAG).1.receive_message = B ∧
    (receive (feedByte decode s HDLC_FLAG).1).1.1 = B ∧
    (B ≠ [] → (receive (feedByte decode s HDLC_FLAG).1).1.2 = (B.length : Int)) ∧
    (A ≠ B → (receive (feedByte decode s HDLC_FLAG).1).1.1 ≠ A) := by
  refine ⟨by simp [feedByte, hr, hd], ?_, ?_, ?_⟩
  · by_cases hB : B = [] <;> simp [feedByte, hr, hd, receive, hB]
  · intro hB
    simp [feedByte, hr, hd, receive, hB]
  · intro hAB
    by_cases hB : B = [] <;> simp [feedByte, hr, hd, receive, hB]
    · intro h
      exact hAB (h ▸ hB.symm)
    · exact fun h => hAB h.symm

/-- Witness for `inbox_overwrite`: pending `A = [7]`, new decode `B = [9]`. -/
theorem inbox_overwrite_witness :
    ({ initState with is_receiving := true
                      receive_buffer := [HDLC_FLAG, 3]
                      receive_message := [7] } : SerialState).is_receiving = true ∧
    ({ initState with is_receiving := true
                      receive_buffer := [HDLC_FLAG, 3]
                      receive_message := [7] } : SerialState).receive_message = [7] ∧
    decodeNine ([HDLC_FLAG, 3] ++ [HDLC_FLAG]) = some [9] ∧
    (receive (feedByte decodeNine
      { initState with is_receiving := true
                       receive_buffer := [HDLC_FLAG, 3]
                       receive_message := [7] } HDLC_FLAG).1).1.1 = [9] :=
  ⟨by decide, by decide, by decide,
   (inbox_overwrite decodeNine
     { initState with is_receiving := true
                      receive_buffer := [HDLC_FLAG, 3]
                      receive_message := [7] } [7] [9]
     (by decide) (by decide) (by decide)).2.1⟩

/-- C6: for every payload, if the codec's encode step raises during
`transmit` (`enc = none`), then `tx_total_frames` increments by 1,
`tx_bad_frames` increments by 1, `tx_good_frames` is unchanged, the
serial-port write is never reached, and the exception propagates to the
caller. -/
theorem transmit_encode_failure (s : SerialState) (writeOk : Bool) :
    (transmit none writeOk s).1.tx_total_frames = s.tx_total_frames + 1 ∧
    (transmit none writeOk s).1.tx_bad_frames = s.tx_bad_frames + 1 ∧
    (transmit none writeOk s).1.tx_good_frames = s.tx_good_frames ∧
    (transmit none writeOk s).2.2 = false ∧
    (transmit none writeOk s).2.1 = true := by
  simp [transmit]

/-- C7: the synchronizer emits no frame for delimiter-only or pre-sync
input: a run of `n` consecutive delimiter bytes from the fresh state
produces zero completed frames, and a byte sequence containing no
delimiter at all (bytes before the first delimiter is ever seen)
produces zero completed frames. -/
theorem no_frame_without_content (decode : List Nat → Option (List Nat)) :
    (∀ n : Nat, (feedBytes decode initState (List.replicate n HDLC_FLAG)).2 = []) ∧
    (∀ bs : List Nat, HDLC_FLAG ∉ bs → (feedBytes decode initState bs).2 = []) := by
  constructor
  · intro n
    exact (feedBytes_flags_only decode n initState rfl).1
  · intro bs hbs
    exact feedBytes_no_flag decode bs initState rfl (by simp [initState]) hbs

/-- Witness for `no_frame_without_content` at two delimiters and at a
delimiter-free stream. -/
theorem no_frame_without_content_witness :
    (feedBytes decodeNone initState (List.replicate 2 HDLC_FLAG)).2 = [] ∧
    (HDLC_FLAG ∉ ([1, 2, 3] : List Nat) ∧
     (feedBytes decodeNone initState [1, 2, 3]).2 = []) :=
  ⟨(no_frame_without_content decodeNone).1 2,
   by decide,
   (no_frame_without_content decodeNone).2 [1, 2, 3] (by decide)⟩

/-- C8: feeding `[FLAG, 0x01, 0x02, FLAG]` to a freshly initialized
synchronizer completes exactly one raw frame, equal to
`[FLAG, 0x01, 0x02, FLAG]`, and `rx_total_frames` becomes 1 — whatever
the codec does with the completed frame. -/
theorem scenario_one_frame (decode : List Nat → Option (List Nat)) :
    (feedBytes decode initState [0x7E, 0x01, 0x02, 0x7E]).2 =
      [[0x7E, 0x01, 0x02, 0x7E]] ∧
    (feedBytes decode initState [0x7E, 0x01, 0x02, 0x7E]).1.rx_total_frames = 1 := by
  rcases h : decode [0x7E, 0x01, 0x02, 0x7E] with _ | msg <;>
    simp [feedBytes, feedByte, initState, HDLC_FLAG, h]

/-- C9 counterexample: `clear_statistics` resets only the counters, not
the synchronizer state.  Feed one delimiter to a fresh object (so
`last_rx_byte` becomes the flag), clear, then feed `[0x01, FLAG]`: on
the cleared object a frame completes and `rx_total_frames` reaches 1,
while a fresh object fed the same `[0x01, FLAG]` completes nothing and
keeps all counters at 0, so the six counters differ. -/
theorem clear_not_like_fresh_cex :
    stats (applyOps
        (clear_statistics (applyOps initState [Op.feed decodeNone HDLC_FLAG]))
        [Op.feed decodeNone 1, Op.feed decodeNone HDLC_FLAG]) ≠
      stats (applyOps initState
        [Op.feed decodeNone 1, Op.feed decodeNone HDLC_FLAG]) := by
  decide

/-- C9 amended: `clear_statistics` followed by any sequence of
operations yields the same six counters as a fresh instance subjected to
the same sequence, provided the synchronizer state at the moment of the
clear is the initial one (`is_receiving = false`, `last_rx_byte` empty);
residual synchronizer state is not cleared and can otherwise make the
counters diverge. -/
theorem clear_then_ops_matches_fresh (ops : List Op) (s : SerialState)
    (hr : s.is_receiving = false) (hl : s.last_rx_byte = none) :
    stats (applyOps (clear_statistics s) ops) = stats (applyOps initState ops) := by
  have h0 : SyncEq (clear_statistics s) initState := by
    refine ⟨by simp [stats, clear_statistics, initState], ?_, ?_, ?_⟩
    · simpa [clear_statistics, initState] using hr
    · simpa [clear_statistics, initState] using hl
    · intro hx
      rw [show (clear_statistics s).is_receiving = s.is_receiving from rfl, hr] at hx
      exact absurd hx (by simp)
  exact (foldl_syncEq ops (clear_statistics s) initState h0).1

/-- Witness for `clear_then_ops_matches_fresh`: clear after one raising
`transmit`, then feed a full frame. -/
theorem clear_then_ops_matches_fresh_witness :
    (applyOps initState [Op.tx none true]).is_receiving = false ∧
    (applyOps initState [Op.tx none true]).last_rx_byte = none ∧
    stats (applyOps (clear_statistics (applyOps initState [Op.tx none true]))
        [Op.feed decodeNone HDLC_FLAG, Op.feed decodeNone 1,
         Op.feed decodeNone HDLC_FLAG]) =
      stats (applyOps initState
        [Op.feed decodeNone HDLC_FLAG, Op.feed decodeNone 1,
         Op.feed decodeNone HDLC_FLAG]) :=
  ⟨by decide, by decide,
   clear_then_ops_matches_fresh
     [Op.feed decodeNone HDLC_FLAG, Op.feed decodeNone 1,
      Op.feed decodeNone HDLC_FLAG]
     (applyOps initState [Op.tx none true]) (by decide) (by decide)⟩

/-- C10: if the most recently published decoded frame is the empty
payload (decode succeeded with `[]`), a subsequent `receive` returns
`([], -1)` exactly as if no frame were pending: the publish did happen
(`rx_good_frames` incremented, notify delivered, slot set to `[]`), yet
the empty-list truthiness test in `receive` cannot distinguish it from
an empty inbox. -/
theorem empty_payload_like_timeout (decode : List Nat → Option (List Nat))
    (s : SerialState) (hr : s.is_receiving = true)
    (hd : decode (s.receive_buffer ++ [HDLC_FLAG]) = some []) :
    (feedByte decode s HDLC_FLAG).1.receive_message = [] ∧
    (feedByte decode s HDLC_FLAG).1.rx_good_frames = s.rx_good_frames + 1 ∧
    (feedByte decode s HDLC_FLAG).1.notifies = s.notifies + 1 ∧
    (receive (feedByte decode s HDLC_FLAG).1).1 = ([], -1) := by
  simp [feedByte, hr, hd, receive]

/-- Witness for `empty_payload_like_timeout` at a concrete state. -/
theorem empty_payload_like_timeout_witness :
    ({ initState with is_receiving := true
                      receive_buffer := [HDLC_FLAG, 5] } : SerialState).is_receiving = true ∧
    decodeEmpty ([HDLC_FLAG, 5] ++ [HDLC_FLAG]) = some [] ∧
    (receive (feedByte decodeEmpty
      { initState with is_receiving := true
                       receive_buffer := [HDLC_FLAG, 5] } HDLC_FLAG).1).1 = ([], -1) :=
  ⟨by decide, by decide,
   (empty_payload_like_timeout decodeEmpty
     { initState with is_receiving := true
                      receive_buffer := [HDLC_FLAG, 5] }
     (by decide) (by decide)).2.2.2⟩
